import Mathlib

/-!
Shallow embedding of the AIOps Command Center collection and triage engine
(`app.py`, `engine.py`, `logs_collection.py`) together with proofs about the
triage classifier, the cluster aggregator, the health scorers, the collection
cache, the extraction loop, the forensic merger and the cache-directory layout.
Machine-level effects (filesystem listings, remote shares, the external
extraction tool) are made explicit as environment records; fallible steps
return `Except` or `Option`.
-/

namespace AIOps

/-- The four triage priorities produced by the classifier in `app.py`
(the strings `"🔴 URGENT"`, `"🟡 HIGH"`, `"🟠 MEDIUM"`, `"🔵 NORMAL"`). -/
inductive Priority
  | URGENT
  | HIGH
  | MEDIUM
  | NORMAL
deriving DecidableEq, Repr

/-- Character-wise lowercasing, `str(row['Message']).lower()` in `app.py`. -/
def lowerStr (s : String) : String := String.mk (s.data.map Char.toLower)

/-- `subAt needle hay` holds when `needle` occurs at the very start of `hay`. -/
def subAt : List Char → List Char → Bool
  | [], _ => true
  | _ :: _, [] => false
  | a :: as, b :: bs => a == b && subAt as bs

/-- `hasSub needle hay` holds when `needle` occurs contiguously anywhere in `hay`. -/
def hasSub (needle : List Char) : List Char → Bool
  | [] => subAt needle []
  | b :: bs => subAt needle (b :: bs) || hasSub needle bs

/-- Python substring test `needle in hay` on strings. -/
def strContains (hay needle : String) : Bool := hasSub needle.data hay.data

/-- The noise-phrase list of `process_forensic_clusters` in `app.py`. -/
def noise_filter : List String :=
  ["vss service is shutting down", "idle timeout", "successfully",
   "entering sleep", "hibernate from sleep"]

/-- The killer-keyword list of `assign_priority` in `app.py`. -/
def killer_keywords : List String :=
  ["stopped", "failed", "denied", "critical", "aborted", "disk error"]

/-- `any(k in msg for k in noise_filter)` with `msg` the lowercased message. -/
def noiseMatch (message : String) : Bool :=
  noise_filter.any (fun k => strContains (lowerStr message) k)

/-- `any(k in msg for k in killer_keywords)` with `msg` the lowercased message. -/
def killerMatch (message : String) : Bool :=
  killer_keywords.any (fun k => strContains (lowerStr message) k)

/-- `assign_priority` from `app.py`: noise filter first, then killer keywords
or a Critical level, then the standard level mapping, else NORMAL. -/
def assign_priority (level message : String) : Priority :=
  if noiseMatch message then Priority.NORMAL
  else if level == "Critical" || killerMatch message then Priority.URGENT
  else if level == "Error" then Priority.HIGH
  else if level == "Warning" then Priority.MEDIUM
  else Priority.NORMAL

/-- C1: `assign_priority` is pure and total, always returns one of the four
priorities, and follows the fixed first-match order: a noise-phrase match in
the lowercased message yields NORMAL unconditionally (even for a Critical
level or a killer-keyword match); otherwise level Critical or a killer-keyword
match yields URGENT; otherwise Error maps to HIGH, Warning to MEDIUM, and
every other level to NORMAL. -/
theorem assign_priority_rules (level message : String) :
    (assign_priority level message = Priority.URGENT ∨
     assign_priority level message = Priority.HIGH ∨
     assign_priority level message = Priority.MEDIUM ∨
     assign_priority level message = Priority.NORMAL)
    ∧ (noiseMatch message = true → assign_priority level message = Priority.NORMAL)
    ∧ (noiseMatch message = false → (level = "Critical" ∨ killerMatch message = true) →
        assign_priority level message = Priority.URGENT)
    ∧ (noiseMatch message = false → level ≠ "Critical" → killerMatch message = false →
        level = "Error" → assign_priority level message = Priority.HIGH)
    ∧ (noiseMatch message = false → level ≠ "Critical" → killerMatch message = false →
        level = "Warning" → assign_priority level message = Priority.MEDIUM)
    ∧ (noiseMatch message = false → level ≠ "Critical" → killerMatch message = false →
        level ≠ "Error" → level ≠ "Warning" →
        assign_priority level message = Priority.NORMAL) := by
  unfold assign_priority
  refine ⟨?_, ?_, ?_, ?_, ?_, ?_⟩
  · split
    · exact Or.inr (Or.inr (Or.inr rfl))
    · split
      · exact Or.inl rfl
      · split
        · exact Or.inr (Or.inl rfl)
        · split
          · exact Or.inr (Or.inr (Or.inl rfl))
          · exact Or.inr (Or.inr (Or.inr rfl))
  · intro h
    simp [h]
  · intro hn hc
    have : (level == "Critical" || killerMatch message) = true := by
      rcases hc with hc | hc
      · simp [hc]
      · simp [hc]
    simp [hn, this]
  · intro hn hc hk he
    simp [hn, hc, hk, he]
  · intro hn hc hk hw
    simp [hn, hc, hk, hw]
  · intro hn hc hk he hw
    simp [hn, hc, hk, he, hw]

/-- C1 witness: the spec's conflict case, level Critical with message
"Service stopped successfully": the noise phrase wins and the result is
NORMAL, via the rules theorem at that concrete input. -/
theorem assign_priority_rules_witness :
    assign_priority "Critical" "Service stopped Successfully" = Priority.NORMAL :=
  (assign_priority_rules "Critical" "Service stopped Successfully").2.1 (by decide)

/-- One merged event row as consumed by `process_forensic_clusters` in
`app.py` (dataframe columns `Hostname`, `Id`, `LevelDisplayName`, `Message`). -/
structure EventRow where
  hostname : String
  eid : Int
  level : String
  message : String
deriving DecidableEq, Repr

/-- One output row of `process_forensic_clusters`: the grouping key fields,
the occurrence count `Total_Count` and the assigned `Priority`. -/
structure Cluster where
  hostname : String
  eid : Int
  level : String
  message : String
  total_count : Nat
  priority : Priority
deriving DecidableEq, Repr

/-- The pandas grouping key `['Hostname', 'Id', 'LevelDisplayName', 'Message']`. -/
def rowKey (r : EventRow) : String × Int × String × String :=
  (r.hostname, r.eid, r.level, r.message)

/-- The same key fields read back from a cluster row. -/
def clusterKey (c : Cluster) : String × Int × String × String :=
  (c.hostname, c.eid, c.level, c.message)

/-- `df.groupby([...]).size().reset_index(name='Total_Count')` followed by
`clustered['Priority'] = clustered.apply(assign_priority, axis=1)`: one
cluster per distinct key, carrying the number of matching rows and the
priority computed from the key's own level and message fields. -/
def clustersOf (rows : List EventRow) : List Cluster :=
  ((rows.map rowKey).dedup).map (fun k =>
    { hostname := k.1, eid := k.2.1, level := k.2.2.1, message := k.2.2.2,
      total_count := rows.countP (fun r => decide (rowKey r = k)),
      priority := assign_priority k.2.2.1 k.2.2.2 })

/-- `sort_map = {URGENT: 0, HIGH: 1, MEDIUM: 2, NORMAL: 3}` in `app.py`. -/
def sort_idx : Priority → Nat
  | Priority.URGENT => 0
  | Priority.HIGH => 1
  | Priority.MEDIUM => 2
  | Priority.NORMAL => 3

/-- Boolean comparator realising `sort_values(by=['sort_idx', 'Total_Count'],
ascending=[True, False])`: priority rank ascending, then count descending. -/
def clusterLEb (a b : Cluster) : Bool :=
  decide (sort_idx a.priority < sort_idx b.priority) ||
    (decide (sort_idx a.priority = sort_idx b.priority) &&
      decide (b.total_count ≤ a.total_count))

/-- Propositional form of the cluster sort order. -/
def ClusterLE (a b : Cluster) : Prop := clusterLEb a b = true

instance : DecidableRel ClusterLE :=
  fun a b => inferInstanceAs (Decidable (clusterLEb a b = true))

instance : IsTotal Cluster ClusterLE :=
  ⟨by
    intro a b
    simp only [ClusterLE, clusterLEb, Bool.or_eq_true, Bool.and_eq_true,
      decide_eq_true_eq]
    omega⟩

instance : IsTrans Cluster ClusterLE :=
  ⟨by
    intro a b c hab hbc
    simp only [ClusterLE, clusterLEb, Bool.or_eq_true, Bool.and_eq_true,
      decide_eq_true_eq] at hab hbc ⊢
    omega⟩

/-- `process_forensic_clusters` from `app.py`: group the rows, then sort with
priority rank ascending and occurrence count descending. -/
def process_forensic_clusters (rows : List EventRow) : List Cluster :=
  List.insertionSort ClusterLE (clustersOf rows)

theorem sum_map_addPointwise {κ : Type} (f g : κ → Nat) :
    ∀ ks : List κ, (ks.map (fun k => f k + g k)).sum = (ks.map f).sum + (ks.map g).sum
  | [] => rfl
  | k :: ks => by
    simp only [List.map_cons, List.sum_cons, sum_map_addPointwise f g ks]
    omega

theorem sum_map_zeroFun {κ : Type} : ∀ ks : List κ, (ks.map (fun _ => (0 : Nat))).sum = 0
  | [] => rfl
  | _ :: ks => by simp [sum_map_zeroFun ks]

theorem sum_map_ite_zero {κ : Type} [DecidableEq κ] (a : κ) :
    ∀ ks : List κ, a ∉ ks → (ks.map (fun k => if a = k then (1 : Nat) else 0)).sum = 0
  | [], _ => rfl
  | k :: ks, h => by
    have hak : a ≠ k := fun e => h (e ▸ List.mem_cons_self a ks)
    have hm : a ∉ ks := fun m => h (List.mem_cons_of_mem k m)
    simp [hak, sum_map_ite_zero a ks hm]

theorem sum_map_indicator {κ : Type} [DecidableEq κ] (a : κ) :
    ∀ ks : List κ, ks.Nodup → a ∈ ks →
      (ks.map (fun k => if a = k then (1 : Nat) else 0)).sum = 1
  | [], _, h => absurd h (List.not_mem_nil a)
  | k :: ks, hnd, hmem => by
    rcases List.mem_cons.mp hmem with he | hm
    · subst he
      have hout : a ∉ ks := (List.nodup_cons.mp hnd).1
      simp [sum_map_ite_zero a ks hout]
    · have hne : a ≠ k := fun e => (List.nodup_cons.mp hnd).1 (e ▸ hm)
      simp [hne, sum_map_indicator a ks (List.nodup_cons.mp hnd).2 hm]

theorem countP_eq_one_of_nodup_mem {κ : Type} [DecidableEq κ] (a : κ) :
    ∀ ks : List κ, ks.Nodup → a ∈ ks → ks.countP (fun x => decide (x = a)) = 1
  | [], _, h => absurd h (List.not_mem_nil a)
  | k :: ks, hnd, hmem => by
    rw [List.countP_cons]
    rcases List.mem_cons.mp hmem with he | hm
    · subst he
      have hout : a ∉ ks := (List.nodup_cons.mp hnd).1
      have hz : ks.countP (fun x => decide (x = a)) = 0 := by
        rw [List.countP_eq_zero]
        intro x hx
        simp only [decide_eq_true_eq]
        exact fun hxa => hout (hxa ▸ hx)
      simp [hz]
    · have hne : k ≠ a := fun e => (List.nodup_cons.mp hnd).1 (e ▸ hm)
      simp [hne, countP_eq_one_of_nodup_mem a ks (List.nodup_cons.mp hnd).2 hm]

theorem sum_countP_keys {α κ : Type} [DecidableEq κ] (key : α → κ) :
    ∀ (l : List α) (ks : List κ), (∀ x ∈ l, key x ∈ ks) → ks.Nodup →
      (ks.map (fun k => l.countP (fun x => decide (key x = k)))).sum = l.length
  | [], ks, _, _ => by
    simp only [List.countP_nil]
    exact sum_map_zeroFun ks
  | x :: xs, ks, hcov, hnd => by
    have hx : key x ∈ ks := hcov x (List.mem_cons_self x xs)
    have ih := sum_countP_keys key xs ks (fun y hy => hcov y (List.mem_cons_of_mem x hy)) hnd
    have hsplit : ∀ k : κ, (x :: xs).countP (fun y => decide (key y = k)) =
        xs.countP (fun y => decide (key y = k)) + (if key x = k then 1 else 0) := by
      intro k
      rw [List.countP_cons]
      by_cases h : key x = k <;> simp [h]
    simp only [hsplit]
    rw [sum_map_addPointwise (fun k => xs.countP (fun y => decide (key y = k)))
        (fun k => if key x = k then 1 else 0) ks, ih,
      sum_map_indicator (key x) ks hnd hx, List.length_cons]

/-- C2: the aggregator's output is a partition of its input: the cluster
occurrence counts sum to the number of input rows, every cluster's count is at
least 1, every input row matches exactly one output cluster's key, and each
cluster's priority is the classifier applied to its own key fields. -/
theorem process_forensic_clusters_partition (rows : List EventRow) :
    ((process_forensic_clusters rows).map Cluster.total_count).sum = rows.length
    ∧ (∀ c ∈ process_forensic_clusters rows, 1 ≤ c.total_count)
    ∧ (∀ r ∈ rows,
        (process_forensic_clusters rows).countP
          (fun c => decide (clusterKey c = rowKey r)) = 1)
    ∧ (∀ c ∈ process_forensic_clusters rows,
        c.priority = assign_priority c.level c.message) := by
  have hperm : List.Perm (process_forensic_clusters rows) (clustersOf rows) :=
    List.perm_insertionSort ClusterLE (clustersOf rows)
  refine ⟨?_, ?_, ?_, ?_⟩
  · have h1 : ((process_forensic_clusters rows).map Cluster.total_count).sum =
        ((clustersOf rows).map Cluster.total_count).sum :=
      (hperm.map Cluster.total_count).sum_eq
    rw [h1]
    have h2 : (clustersOf rows).map Cluster.total_count =
        ((rows.map rowKey).dedup).map
          (fun k => rows.countP (fun r => decide (rowKey r = k))) := by
      simp [clustersOf, List.map_map, Function.comp]
    rw [h2]
    exact sum_countP_keys rowKey rows ((rows.map rowKey).dedup)
      (fun x hx => List.mem_dedup.mpr (List.mem_map_of_mem rowKey hx))
      (List.nodup_dedup _)
  · intro c hc
    have hc2 : c ∈ clustersOf rows := hperm.mem_iff.mp hc
    rcases List.mem_map.mp hc2 with ⟨k, hk, hck⟩
    have hkm : k ∈ rows.map rowKey := List.mem_dedup.mp hk
    rcases List.mem_map.mp hkm with ⟨r, hr, hrk⟩
    have hpos : 0 < rows.countP (fun x => decide (rowKey x = k)) :=
      List.countP_pos_iff.mpr ⟨r, hr, by simp [hrk]⟩
    have : c.total_count = rows.countP (fun x => decide (rowKey x = k)) := by
      rw [← hck]
    omega
  · intro r hr
    rw [hperm.countP_eq]
    have h1 : (clustersOf rows).countP (fun c => decide (clusterKey c = rowKey r)) =
        ((rows.map rowKey).dedup).countP (fun k => decide (k = rowKey r)) := by
      simp only [clustersOf, List.countP_map]
      rfl
    rw [h1]
    exact countP_eq_one_of_nodup_mem (rowKey r) ((rows.map rowKey).dedup)
      (List.nodup_dedup _)
      (List.mem_dedup.mpr (List.mem_map_of_mem rowKey hr))
  · intro c hc
    have hc2 : c ∈ clustersOf rows := hperm.mem_iff.mp hc
    rcases List.mem_map.mp hc2 with ⟨k, _, hck⟩
    rw [← hck]

/-- Concrete merged rows used by the witnesses: the spec's end-to-end
scenario (two identical disk-error rows plus one idle-timeout row). -/
def rowsW : List EventRow :=
  [⟨"h1", 1, "Error", "Disk error on volume C"⟩,
   ⟨"h1", 1, "Error", "Disk error on volume C"⟩,
   ⟨"h1", 2, "Warning", "idle timeout"⟩]

/-- C2 witness: on the concrete scenario the counts sum to the number of
input rows and the first row matches exactly one cluster. -/
theorem process_forensic_clusters_partition_witness :
    ((process_forensic_clusters rowsW).map Cluster.total_count).sum = 3
    ∧ (process_forensic_clusters rowsW).countP
        (fun c => decide (clusterKey c = rowKey ⟨"h1", 1, "Error", "Disk error on volume C"⟩)) = 1 :=
  ⟨(process_forensic_clusters_partition rowsW).1,
   (process_forensic_clusters_partition rowsW).2.2.1
     ⟨"h1", 1, "Error", "Disk error on volume C"⟩ (by decide)⟩

/-- The strict "more urgent" order on priorities: URGENT before HIGH before
MEDIUM before NORMAL. -/
def moreUrgent (p q : Priority) : Prop := sort_idx p < sort_idx q

instance : DecidableRel moreUrgent :=
  fun p q => inferInstanceAs (Decidable (sort_idx p < sort_idx q))

/-- C3: in the aggregator's sorted output, a cluster with strictly more
urgent priority appears strictly earlier, and among clusters of equal
priority one with a strictly larger occurrence count appears strictly
earlier. -/
theorem process_forensic_clusters_order (rows : List EventRow) (i j : Nat)
    (hi : i < (process_forensic_clusters rows).length)
    (hj : j < (process_forensic_clusters rows).length) :
    (moreUrgent ((process_forensic_clusters rows).get ⟨i, hi⟩).priority
        ((process_forensic_clusters rows).get ⟨j, hj⟩).priority → i < j)
    ∧ (((process_forensic_clusters rows).get ⟨i, hi⟩).priority =
          ((process_forensic_clusters rows).get ⟨j, hj⟩).priority →
        ((process_forensic_clusters rows).get ⟨j, hj⟩).total_count <
          ((process_forensic_clusters rows).get ⟨i, hi⟩).total_count → i < j) := by
  have hs : List.Pairwise ClusterLE (process_forensic_clusters rows) :=
    List.sorted_insertionSort ClusterLE (clustersOf rows)
  have hpw := List.pairwise_iff_getElem.mp hs
  simp only [List.get_eq_getElem]
  constructor
  · intro hmu
    unfold moreUrgent at hmu
    rcases Nat.lt_trichotomy i j with h | h | h
    · exact h
    · subst h
      omega
    · have hle := hpw j i hj hi h
      simp only [ClusterLE, clusterLEb, Bool.or_eq_true, Bool.and_eq_true,
        decide_eq_true_eq] at hle
      omega
  · intro hpeq hcnt
    have hsidx : sort_idx ((process_forensic_clusters rows)[i]).priority =
        sort_idx ((process_forensic_clusters rows)[j]).priority := by
      rw [hpeq]
    rcases Nat.lt_trichotomy i j with h | h | h
    · exact h
    · subst h
      omega
    · have hle := hpw j i hj hi h
      simp only [ClusterLE, clusterLEb, Bool.or_eq_true, Bool.and_eq_true,
        decide_eq_true_eq] at hle
      omega

/-- C3 witness: on the concrete scenario the URGENT disk-error cluster at
position 0 precedes the NORMAL idle-timeout cluster at position 1. -/
theorem process_forensic_clusters_order_witness : (0 : Nat) < 1 :=
  (process_forensic_clusters_order rowsW 0 1 (by decide) (by decide)).1 (by decide)

/-- The pattern-count scorer of `app.py`:
`urgents = len(df[df['Priority'] == "🔴 URGENT"])` on the clustered
dataframe, then `stability = max(0, 100 - (urgents * 10))`. -/
def stability (clusters : List Cluster) : Int :=
  max 0 (100 - 10 *
    (clusters.countP (fun c => decide (c.priority = Priority.URGENT)) : Int))

/-- The health score of `expert_remediation_advisor` in `logs_collection.py`:
`100 - (error_count * 5) - (warning_count * 2)` with `max(0, ...)` applied,
where the counts are the raw Error-level and Warning-level rows of the
forensic dataframe. -/
def health_score (events : List EventRow) : Int :=
  max 0 (100 - (events.countP (fun r => decide (r.level = "Error")) : Int) * 5
    - (events.countP (fun r => decide (r.level = "Warning")) : Int) * 2)

/-- C4 counterexample: for a single Warning-level event the advisor scores
98 (it deducts 2 per Warning event), while the claimed raw-event formula
`max(0, 100 − 5 × Error − 20 × Critical)` gives 100: the code never weighs
Critical events and does weigh Warning events. -/
theorem health_score_refutes_raw_claim :
    health_score [⟨"h1", 7, "Warning", "w"⟩] ≠
      max 0 (100 - 5 * (([⟨"h1", 7, "Warning", "w"⟩] : List EventRow).countP
          (fun r => decide (r.level = "Error")) : Int)
        - 20 * (([⟨"h1", 7, "Warning", "w"⟩] : List EventRow).countP
          (fun r => decide (r.level = "Critical")) : Int)) := by
  decide

/-- C4 (amended): each scorer equals its formula floored at 0 and always lies
in [0, 100]: the pattern-count policy is `max(0, 100 − 10 × URGENT cluster
count)` and the advisor's raw-event policy is `max(0, 100 − 5 × Error event
count − 2 × Warning event count)`. -/
theorem scores_formula_and_range (clusters : List Cluster) (events : List EventRow) :
    stability clusters = max 0 (100 - 10 *
        (clusters.countP (fun c => decide (c.priority = Priority.URGENT)) : Int))
    ∧ 0 ≤ stability clusters ∧ stability clusters ≤ 100
    ∧ health_score events = max 0 (100
        - 5 * (events.countP (fun r => decide (r.level = "Error")) : Int)
        - 2 * (events.countP (fun r => decide (r.level = "Warning")) : Int))
    ∧ 0 ≤ health_score events ∧ health_score events ≤ 100 := by
  refine ⟨rfl, le_max_left 0 _, ?_, ?_, le_max_left 0 _, ?_⟩
  · exact max_le (by norm_num) (by omega)
  · unfold health_score
    congr 1
    ring
  · exact max_le (by norm_num) (by omega)

/-- `host.replace(".", "_")` from `engine.get_host_dir`: the pattern is a
single character, so this is a character-wise replacement. -/
def replaceDots (s : String) : String :=
  String.mk (s.data.map (fun c => if c = '.' then '_' else c))

/-- `get_host_dir` from `engine.py`:
`os.path.join(self.base_path, host.replace(".", "_"))` with the default base
path `C:\logs_collection`. -/
def get_host_dir (host : String) : String :=
  "C:\\logs_collection" ++ "\\" ++ replaceDots host

/-- `get_host_directory` from `logs_collection.py`:
`os.path.join(BASE_STAGING, host)`. -/
def get_host_directory (host : String) : String :=
  "C:\\logs_collection" ++ "\\" ++ host

theorem string_append_left_cancel {p s t : String} (h : p ++ s = p ++ t) : s = t := by
  apply String.ext
  have hd := congrArg String.data h
  simp only [String.data_append] at hd
  exact List.append_cancel_left hd

/-- C9 counterexample: the distinct host identifiers "10.0.0.1" and
"10_0_0_1" are assigned the very same cache directory by `get_host_dir`,
because dots are folded into underscores before joining. -/
theorem get_host_dir_collision :
    get_host_dir "10.0.0.1" = get_host_dir "10_0_0_1"
    ∧ "10.0.0.1" ≠ "10_0_0_1" :=
  ⟨by decide, by decide⟩

/-- C9 (amended): `get_host_dir` assigns distinct directories to two hosts
whenever their dot-to-underscore normalisations differ (hosts that differ
only by interchanging `.` and `_` collide), and `get_host_directory` in
`logs_collection.py` assigns distinct directories to any two distinct
hosts. -/
theorem host_dirs_distinct (h1 h2 : String) :
    (replaceDots h1 ≠ replaceDots h2 → get_host_dir h1 ≠ get_host_dir h2)
    ∧ (h1 ≠ h2 → get_host_directory h1 ≠ get_host_directory h2) := by
  constructor
  · intro hne heq
    exact hne (string_append_left_cancel heq)
  · intro hne heq
    exact hne (string_append_left_cancel heq)

/-- C9 witness: two genuinely different hosts receive different directories
from `get_host_dir`, via the amended theorem at a concrete input. -/
theorem host_dirs_distinct_witness :
    get_host_dir "10.0.0.1" ≠ get_host_dir "10.0.0.2" :=
  (host_dirs_distinct "10.0.0.1" "10.0.0.2").1 (by decide)

/-- Python `f.startswith(p)` on strings. -/
def strStarts (s p : String) : Bool := subAt p.data s.data

/-- Python `f.endswith(p)` on strings. -/
def strEnds (s p : String) : Bool := subAt p.data.reverse s.data.reverse

/-- The four channels collected by `engine.run_collection`. -/
def log_types : List String := ["Application", "Security", "Setup", "System"]

/-- Environment of one `run_collection` call: the cache-directory listing,
whether `find_remote_path` finds a reachable administrative share, the remote
directory listing, and the channels whose `shutil.copy2` call raises. -/
structure EngineEnv where
  cacheFiles : List String
  remoteAvailable : Bool
  remoteFiles : List String
  copyFails : List String
deriving Repr

/-- How a completed `run_collection` call ended. -/
inductive RcVerdict
  | cachedHit
  | synced
  | unreachable
deriving DecidableEq, Repr

/-- Observable outcome of `run_collection`: the returned success flag and
result string, plus the effects - whether `find_remote_path` was invoked and
which channels were copied and handed to the external conversion tool. -/
structure RcOutcome where
  success : Bool
  result : String
  verdict : RcVerdict
  probedRemote : Bool
  attempted : List String
deriving DecidableEq, Repr

/-- The per-channel loop of `run_collection`: a channel whose `.evtx` is
absent on the remote share is skipped silently; a failing `shutil.copy2`
raises and aborts the loop (there is no try/except in `engine.py`); otherwise
the channel is copied and converted - the tool's exit status is not checked -
and recorded as attempted. -/
def extractLoop (env : EngineEnv) : List String → Except String (List String)
  | [] => Except.ok []
  | l :: ls =>
    if (l ++ ".evtx") ∈ env.remoteFiles then
      if l ∈ env.copyFails then Except.error l
      else
        match extractLoop env ls with
        | Except.ok rest => Except.ok (l :: rest)
        | Except.error e => Except.error e
    else extractLoop env ls

/-- The cache check of `run_collection`: the length of
`[f for f in os.listdir(folder) if f.startswith(today_prefix) and f.endswith('_Filtered.csv')]`. -/
def todayBatchCount (cacheFiles : List String) (today : String) : Nat :=
  (cacheFiles.filter (fun f => strStarts f today && strEnds f "_Filtered.csv")).length

/-- `run_collection` from `engine.py` over the explicit environment: cache
check first, then remote path resolution, then the channel loop. -/
def run_collection (today folder : String) (env : EngineEnv) :
    Except String RcOutcome :=
  if log_types.length ≤ todayBatchCount env.cacheFiles today then
    Except.ok ⟨true, folder, RcVerdict.cachedHit, false, []⟩
  else if !env.remoteAvailable then
    Except.ok ⟨false, "Unreachable", RcVerdict.unreachable, true, []⟩
  else
    match extractLoop env log_types with
    | Except.ok att => Except.ok ⟨true, folder, RcVerdict.synced, true, att⟩
    | Except.error e => Except.error e

/-- A cache file covers a channel when its name ends in
`_{channel}_Filtered.csv`, the naming convention used by both extractors. -/
def coveredChannel (files : List String) (channel : String) : Bool :=
  files.any (fun f => strEnds f ("_" ++ channel ++ "_Filtered.csv"))

theorem run_collection_miss_probes (today folder : String) (env : EngineEnv)
    (hc : ¬ log_types.length ≤ todayBatchCount env.cacheFiles today)
    (o : RcOutcome) (ho : run_collection today folder env = Except.ok o) :
    o.probedRemote = true := by
  unfold run_collection at ho
  rw [if_neg hc] at ho
  cases hr : env.remoteAvailable
  · simp [hr] at ho
    rw [← ho]
  · simp [hr] at ho
    rcases hlo : extractLoop env log_types with e | att
    · simp [hlo] at ho
    · simp [hlo] at ho
      rw [← ho]

/-- Four same-day batches of the Application channel alone. -/
def dupAppFiles : List String :=
  ["20260101_0900_Application_Filtered.csv",
   "20260101_0910_Application_Filtered.csv",
   "20260101_0920_Application_Filtered.csv",
   "20260101_0930_Application_Filtered.csv"]

/-- C5: `run_collection` skips remote path resolution and extraction and
reports success with the cached folder exactly when the number of cache files
whose names start with today's prefix and end with `_Filtered.csv` reaches
the number of required channels; and the count is only a coarse presence
check: four same-day Application batches satisfy it while the required
Security channel has no batch at all. -/
theorem run_collection_cache_check (today folder : String) (env : EngineEnv) :
    ((∃ o, run_collection today folder env = Except.ok o ∧
        o.probedRemote = false ∧ o.attempted = [] ∧
        o.success = true ∧ o.result = folder) ↔
      log_types.length ≤ todayBatchCount env.cacheFiles today)
    ∧ (log_types.length ≤ todayBatchCount dupAppFiles "20260101"
        ∧ coveredChannel dupAppFiles "Security" = false) := by
  refine ⟨⟨?_, ?_⟩, by decide, by decide⟩
  · rintro ⟨o, ho, hp, -, -, -⟩
    by_cases hc : log_types.length ≤ todayBatchCount env.cacheFiles today
    · exact hc
    · rw [run_collection_miss_probes today folder env hc o ho] at hp
      cases hp
  · intro hc
    refine ⟨⟨true, folder, RcVerdict.cachedHit, false, []⟩, ?_, rfl, rfl, rfl, rfl⟩
    unfold run_collection
    rw [if_pos hc]

/-- C5 witness: with the duplicated Application batches in the cache, the
call returns success on the cached folder with no probe and no extraction. -/
theorem run_collection_cache_check_witness :
    ∃ o, run_collection "20260101" "C:\\logs_collection\\host1"
        ⟨dupAppFiles, false, [], []⟩ = Except.ok o ∧
      o.probedRemote = false ∧ o.attempted = [] ∧
      o.success = true ∧ o.result = "C:\\logs_collection\\host1" :=
  (run_collection_cache_check "20260101" "C:\\logs_collection\\host1"
    ⟨dupAppFiles, false, [], []⟩).1.mpr (by decide)

/-- C10: when the same-day batch count reaches the channel count,
`run_collection` returns success with the cached folder without probing the
remote path at all - in particular an unreachable host is still reported as a
successful collection - and an Unreachable verdict can only be produced on a
cache miss. -/
theorem run_collection_cache_hit_no_probe (today folder : String) (env : EngineEnv) :
    (log_types.length ≤ todayBatchCount env.cacheFiles today →
      run_collection today folder env =
        Except.ok ⟨true, folder, RcVerdict.cachedHit, false, []⟩)
    ∧ (∀ o, run_collection today folder env = Except.ok o →
        o.verdict = RcVerdict.unreachable →
        todayBatchCount env.cacheFiles today < log_types.length) := by
  constructor
  · intro hc
    unfold run_collection
    rw [if_pos hc]
  · intro o ho hv
    by_cases hc : log_types.length ≤ todayBatchCount env.cacheFiles today
    · have : run_collection today folder env =
          Except.ok ⟨true, folder, RcVerdict.cachedHit, false, []⟩ := by
        unfold run_collection
        rw [if_pos hc]
      rw [this] at ho
      simp at ho
      rw [← ho] at hv
      cases hv
    · omega

/-- C10 witness: an unreachable host with a full cache still yields a
successful cached result, via the theorem at a concrete environment. -/
theorem run_collection_cache_hit_no_probe_witness :
    run_collection "20260101" "C:\\logs_collection\\host1"
        ⟨dupAppFiles, false, [], []⟩ =
      Except.ok ⟨true, "C:\\logs_collection\\host1", RcVerdict.cachedHit, false, []⟩ :=
  (run_collection_cache_hit_no_probe "20260101" "C:\\logs_collection\\host1"
    ⟨dupAppFiles, false, [], []⟩).1 (by decide)

/-- Engine environment where every required channel is present remotely and
the Application copy step raises. -/
def envCopyFail : EngineEnv :=
  { cacheFiles := [],
    remoteAvailable := true,
    remoteFiles := ["Application.evtx", "Security.evtx", "Setup.evtx", "System.evtx"],
    copyFails := ["Application"] }

/-- C6 counterexample: in `engine.run_collection` there is no try/except
around the channel loop, so a copy failure on the first channel propagates as
an exception and aborts the whole call: the three remaining present channels
are never attempted and the failure is not reported as data. -/
theorem run_collection_copy_failure_aborts :
    run_collection "20260101" "C:\\logs_collection\\host1" envCopyFail =
      Except.error "Application" := rfl

/-- The five channels of `logs_collection.process_logs_with_timestamps`. -/
def log_types5 : List String :=
  ["Application", "Security", "Setup", "System", "ForwardedEvents"]

/-- Environment of one `process_logs_with_timestamps` call: the cache folder
listing, the remote listing, and the channels whose copy step or external
converter invocation (`subprocess.run(..., check=True)`) raises. -/
structure ExtractEnv where
  folderFiles : List String
  remoteFiles : List String
  copyFails : List String
  toolFails : List String
deriving Repr

/-- How one channel of `process_logs_with_timestamps` ended. -/
inductive ChanResult
  | skippedCached
  | skippedAbsent
  | extracted
  | errCopy
  | errTool
deriving DecidableEq, Repr

/-- Per-channel outcome: the channel, how it ended, and whether its transient
staging `.evtx` copy is still present in the cache folder afterwards. -/
structure ChanOutcome where
  channel : String
  result : ChanResult
  stagingLeft : Bool
deriving DecidableEq, Repr

/-- One iteration of the channel loop in `process_logs_with_timestamps`: the
same-day idempotency check, the remote presence probe (absence is a silent
skip), then the try block - `shutil.copy2`, the converter invocation with
`check=True`, and `os.remove` of the staging copy placed after the converter
inside the try, so a converter failure skips the remove and leaves the
staging file; the except arm only prints, so every outcome is data. -/
def processChannel (env : ExtractEnv) (today : String) (l : String) : ChanOutcome :=
  if env.folderFiles.any (fun f =>
      strStarts f today && strEnds f ("_" ++ l ++ "_Filtered.csv")) then
    ⟨l, ChanResult.skippedCached, false⟩
  else if (l ++ ".evtx") ∈ env.remoteFiles then
    if l ∈ env.copyFails then ⟨l, ChanResult.errCopy, false⟩
    else if l ∈ env.toolFails then ⟨l, ChanResult.errTool, true⟩
    else ⟨l, ChanResult.extracted, false⟩
  else ⟨l, ChanResult.skippedAbsent, false⟩

/-- `process_logs_with_timestamps` from `logs_collection.py`: the whole
channel loop; per-channel failures are caught by the try/except, so the loop
is total and yields one outcome per requested channel. -/
def process_logs_with_timestamps (env : ExtractEnv) (today : String) :
    List ChanOutcome :=
  log_types5.map (processChannel env today)

theorem processChannel_channel (env : ExtractEnv) (today l : String) :
    (processChannel env today l).channel = l := by
  unfold processChannel
  repeat' split
  all_goals rfl

theorem extractLoop_error_mem (env : EngineEnv) :
    ∀ ls : List String, ∀ e, extractLoop env ls = Except.error e → e ∈ env.copyFails
  | [], e, h => by simp [extractLoop] at h
  | l :: ls, e, h => by
    unfold extractLoop at h
    by_cases h1 : (l ++ ".evtx") ∈ env.remoteFiles
    · rw [if_pos h1] at h
      by_cases h2 : l ∈ env.copyFails
      · rw [if_pos h2] at h
        injection h with h3
        exact h3 ▸ h2
      · rw [if_neg h2] at h
        rcases hlo : extractLoop env ls with e2 | att
        · simp [hlo] at h
          exact h ▸ extractLoop_error_mem env ls e2 hlo
        · simp [hlo] at h
    · rw [if_neg h1] at h
      exact extractLoop_error_mem env ls e h

theorem run_collection_error_mem (today folder : String) (env : EngineEnv)
    (e : String) (h : run_collection today folder env = Except.error e) :
    e ∈ env.copyFails := by
  unfold run_collection at h
  by_cases hc : log_types.length ≤ todayBatchCount env.cacheFiles today
  · rw [if_pos hc] at h
    cases h
  · rw [if_neg hc] at h
    cases hr : env.remoteAvailable
    · simp [hr] at h
    · simp [hr] at h
      rcases hlo : extractLoop env log_types with e2 | att
      · simp [hlo] at h
        exact h ▸ extractLoop_error_mem env log_types e2 hlo
      · simp [hlo] at h

/-- C6 (amended): in `process_logs_with_timestamps` every per-channel failure
is caught and reported as that channel's outcome, so each requested channel
produces exactly one outcome in order, whatever fails; in
`engine.run_collection` an external-tool failure cannot abort the loop (its
exit status is never checked), but an uncaught `shutil.copy2` failure aborts
the call - the loop raises exactly on a channel whose copy step fails. -/
theorem per_channel_failures_as_data (env : ExtractEnv) (today : String)
    (env2 : EngineEnv) (today2 folder : String) :
    (process_logs_with_timestamps env today).map ChanOutcome.channel = log_types5
    ∧ (∀ e, run_collection today2 folder env2 = Except.error e →
        e ∈ env2.copyFails) := by
  constructor
  · unfold process_logs_with_timestamps
    rw [List.map_map]
    have : ∀ a ∈ log_types5,
        (ChanOutcome.channel ∘ processChannel env today) a = id a := by
      intro a _
      exact processChannel_channel env today a
    rw [List.map_congr_left this, List.map_id]
  · intro e he
    exact run_collection_error_mem today2 folder env2 e he

/-- Extraction environment where the Application channel is present, not yet
cached, copies fine, and the external converter fails. -/
def envTool : ExtractEnv :=
  { folderFiles := [],
    remoteFiles := ["Application.evtx"],
    copyFails := [],
    toolFails := ["Application"] }

/-- C6 witness: with a failing Application converter, the loop still yields
one outcome for each of the five channels, via the amended theorem. -/
theorem per_channel_failures_as_data_witness :
    (process_logs_with_timestamps envTool "20260101").map ChanOutcome.channel =
      log_types5 :=
  (per_channel_failures_as_data envTool "20260101"
    ⟨[], true, [], []⟩ "20260101" "C:\\logs_collection\\host1").1

/-- C8: evaluating the extractor at the failing input - Application present
remotely, not cached, copy succeeding, external converter raising - the
channel ends in a converter error and its transient staging copy is left
behind in the cache folder: `os.remove` sits after the converter call inside
the try block, so the converter's exception skips it. This contradicts the
claimed unconditional cleanup. -/
theorem staging_copy_left_on_tool_failure :
    (processChannel envTool "20260101" "Application").result = ChanResult.errTool
    ∧ (processChannel envTool "20260101" "Application").stagingLeft = true :=
  ⟨rfl, rfl⟩

/-- One raw CSV row of an export batch, before timestamp parsing. -/
structure RawRec where
  rawTime : String
  eid : Int
  level : String
  message : String
deriving DecidableEq, Repr

/-- One merged timeline row: `pd.to_datetime(..., format='mixed',
errors='coerce')` turns an unparsable `TimeCreated` string into null (`NaT`),
kept here as `none`. -/
structure TimelineRow where
  time : Option Nat
  eid : Int
  level : String
  message : String
deriving DecidableEq, Repr

/-- Boolean comparator of `sort_values('TimeCreated', ascending=False)` with
pandas' default `na_position='last'`: descending on parsed timestamps, null
always after every parsed timestamp. -/
def timeDescb (a b : TimelineRow) : Bool :=
  match b.time with
  | none => true
  | some y =>
    match a.time with
    | none => false
    | some x => decide (y ≤ x)

/-- Propositional form of the timeline sort order. -/
def TimeDesc (a b : TimelineRow) : Prop := timeDescb a b = true

instance : DecidableRel TimeDesc :=
  fun a b => inferInstanceAs (Decidable (timeDescb a b = true))

instance : IsTotal TimelineRow TimeDesc :=
  ⟨by
    intro a b
    obtain ⟨ta, _, _, _⟩ := a
    obtain ⟨tb, _, _, _⟩ := b
    cases ta <;> cases tb <;> simp [TimeDesc, timeDescb] <;> omega⟩

instance : IsTrans TimelineRow TimeDesc :=
  ⟨by
    intro a b c hab hbc
    obtain ⟨ta, _, _, _⟩ := a
    obtain ⟨tb, _, _, _⟩ := b
    obtain ⟨tc, _, _, _⟩ := c
    cases ta <;> cases tb <;> cases tc <;>
      simp_all [TimeDesc, timeDescb] <;> omega⟩

theorem timeDesc_none_left {a b : TimelineRow} (hd : TimeDesc a b)
    (ha : a.time = none) : b.time = none := by
  obtain ⟨ta, _, _, _⟩ := a
  obtain ⟨tb, _, _, _⟩ := b
  cases ta <;> cases tb <;> simp_all [TimeDesc, timeDescb]

/-- `get_forensics` from `engine.py`: keep the `_Filtered.csv` batch files of
the host folder, return `None` when there are none, otherwise concatenate
their rows, parse each timestamp with the ambient lenient parser (failures
become null instead of raising) and sort by timestamp descending with nulls
last. -/
def get_forensics (parse : String → Option Nat)
    (batches : List (String × List RawRec)) : Option (List TimelineRow) :=
  if (batches.filter (fun b => strEnds b.1 "_Filtered.csv")).isEmpty then none
  else
    some (List.insertionSort TimeDesc
      (((batches.filter (fun b => strEnds b.1 "_Filtered.csv")).map
          (fun b => b.2)).flatten.map
        (fun r => ⟨parse r.rawTime, r.eid, r.level, r.message⟩)))

/-- C7: the merge is a total function - an unparsable timestamp string turns
into a null timestamp, never an exception: with zero batch files the result
is `none` rather than a failure; otherwise the returned timeline is a
permutation of all batch rows (null-timestamp rows are kept, not dropped),
and within it every null-timestamp row sits after every row whose timestamp
parsed. -/
theorem get_forensics_spec (parse : String → Option Nat)
    (batches : List (String × List RawRec)) :
    ((batches.filter (fun b => strEnds b.1 "_Filtered.csv")).isEmpty = true →
      get_forensics parse batches = none)
    ∧ (∀ l, get_forensics parse batches = some l →
        List.Perm l
          (((batches.filter (fun b => strEnds b.1 "_Filtered.csv")).map
              (fun b => b.2)).flatten.map
            (fun r => ⟨parse r.rawTime, r.eid, r.level, r.message⟩))
        ∧ ∀ (i j : Nat) (hi : i < l.length) (hj : j < l.length),
            (l.get ⟨i, hi⟩).time = none → (l.get ⟨j, hj⟩).time ≠ none →
            j < i) := by
  constructor
  · intro h
    unfold get_forensics
    rw [if_pos h]
  · intro l hl
    unfold get_forensics at hl
    by_cases h : (batches.filter (fun b => strEnds b.1 "_Filtered.csv")).isEmpty
    · rw [if_pos h] at hl
      cases hl
    · rw [if_neg h] at hl
      injection hl with hl
      subst hl
      constructor
      · exact List.perm_insertionSort TimeDesc _
      · have hs : List.Pairwise TimeDesc (List.insertionSort TimeDesc
            (((batches.filter (fun b => strEnds b.1 "_Filtered.csv")).map
                (fun b => b.2)).flatten.map
              (fun r => ⟨parse r.rawTime, r.eid, r.level, r.message⟩))) :=
          List.sorted_insertionSort TimeDesc _
        have hpw := List.pairwise_iff_getElem.mp hs
        intro i j hi hj hni hsj
        simp only [List.get_eq_getElem] at hni hsj ⊢
        rcases Nat.lt_trichotomy i j with hij | hij | hij
        · have hd := hpw i j hi hj hij
          exact absurd (timeDesc_none_left hd hni) hsj
        · subst hij
          exact absurd hni hsj
        · exact hij

/-- A tiny concrete stand-in for the lenient timestamp parser, used only by
the merge witness: all-digit strings parse, anything else is null. -/
def parseDigits (s : String) : Option Nat :=
  if s.data ≠ [] ∧ s.data.all Char.isDigit then
    some (s.data.foldl (fun n c => 10 * n + (c.toNat - 48)) 0)
  else none

/-- Concrete batch set for the merge witness: one proper batch holding two
parsable rows and one unparsable one, plus one non-batch file. -/
def batchesW : List (String × List RawRec) :=
  [("20260101_0900_Application_Filtered.csv",
    [⟨"5", 1, "Error", "a"⟩, ⟨"not a date", 2, "Error", "b"⟩,
     ⟨"9", 3, "Warning", "c"⟩]),
   ("notes.txt", [⟨"zzz", 4, "Information", "d"⟩])]

/-- The merged timeline of the witness batches: timestamps 9 and 5
descending, then the null-timestamp row last. -/
def timelineW : List TimelineRow :=
  [⟨some 9, 3, "Warning", "c"⟩, ⟨some 5, 1, "Error", "a"⟩,
   ⟨none, 2, "Error", "b"⟩]

/-- C7 witness: on the concrete batches the unparsable row is kept with a
null timestamp and sorts after the parsed rows, via the merge theorem. -/
theorem get_forensics_spec_witness : (1 : Nat) < 2 :=
  (((get_forensics_spec parseDigits batchesW).2 timelineW (by decide)).2
    2 1 (by decide) (by decide) (by decide) (by decide))

end AIOps
